import Mathlib

/-!
Verification of the session/token accounting core of the circa-zhong repository.

The JavaScript source is shallowly embedded: pure functions become Lean
functions, the mutable session store becomes explicit state passing on a
`SessionState` record, instants (JS `Date` values / epoch milliseconds) become
`Nat`, and JS `null`/`undefined` string or number fields become `Option`
values. JS truthiness on strings (empty string is falsy) is modelled
explicitly where the source relies on it.
-/

namespace Zhong

/-- JS `Array.prototype.includes` style membership used by `Set.has` /
`Array.includes` in the source. -/
def setAdd (l : List String) (x : String) : List String :=
  if l.contains x then l else l ++ [x]

/-- `new Set(list)` in JS: deduplicate, keeping the first occurrence of each
element (insertion order). -/
def jsSet (l : List String) : List String :=
  l.foldl setAdd []

/-- JS `String.prototype.padStart(2, '0')`. -/
def padStart2 (s : String) : String :=
  if 2 ≤ s.length then s else String.mk (List.replicate (2 - s.length) '0') ++ s

/-- JS `String.prototype.slice(-2)`: the last two characters (the whole string
when it is shorter than two characters). -/
def sliceLast2 (s : String) : String :=
  String.mk (s.toList.drop (s.length - 2))

/-- Numeric value of a decimal digit character, as in `parseInt` on a digit. -/
def charDigitVal (c : Char) : Nat :=
  c.toNat - '0'.toNat

/-- JS `Math.round(ms / 3600000)` for the auto-end description (round half
toward positive infinity). -/
def jsRoundHours (ms : Int) : Int :=
  Int.fdiv (2 * ms + 3600000) (2 * 3600000)

/-- JS `String.prototype.toUpperCase()` (ASCII), written over the character
list so that it evaluates inside the kernel. -/
def jsToUpper (s : String) : String :=
  String.mk (s.toList.map Char.toUpper)

/-- JS truthiness of an optional string (`undefined` and `''` are falsy). -/
def jsStrTruthy (o : Option String) : Bool :=
  !((o.getD "") == "")

/-! ## Data model (cursor-token-tracker.js and session-manager in App.jsx)

`Entry` is one record of the token-usage log; the open `metadata` mapping of
the source is flattened to the fields the core reads (`metadata.entryId`). -/

structure Entry where
  timestamp : Nat := 0
  tokensUsed : Nat := 0
  model : String := "unknown"
  operation : String := "unknown"
  project : String := "unknown"
  file : Option String := none
  entryId : Option String := none
  deriving Repr, DecidableEq

structure Activity where
  timestamp : Nat := 0
  type : String := ""
  description : String := ""
  metadata : List (String × String) := []
  deriving Repr, DecidableEq

/-- The `Session` class of App.jsx. `promptGroups` is not a constructor field
in the source; it is attached to the raw session JSON by the sync script and
carried along, so it is a plain (possibly empty) field here. -/
structure Session where
  id : String := ""
  startTime : Nat := 0
  endTime : Option Nat := none
  projectId : Option Nat := none
  projectCode : Option String := none
  projectName : Option String := none
  description : String := ""
  conversationId : Option String := none
  tokenEntries : List String := []
  totalTokens : Nat := 0
  activities : List Activity := []
  tags : List String := []
  metadata : List (String × String) := []
  promptGroups : List String := []
  deriving Repr, DecidableEq

/-- The persisted session store: the sessions file plus the single-line
active-session pointer file (`none` = absent/empty). -/
structure SessionState where
  sessions : List Session := []
  activeId : Option String := none
  deriving Repr, DecidableEq

/-! ## cursor-token-tracker.js: getTokenHistory -/

structure HistoryFilter where
  startDate : Option Nat := none
  endDate : Option Nat := none
  project : Option String := none
  operation : Option String := none
  deriving Repr, DecidableEq

/-- `getTokenHistory(options)` restricted to its returned entry list: the
stored entries with the four optional filters applied in sequence. The source
applies each filter with `Array.prototype.filter`, preserving stored order,
and performs no sorting. -/
def getTokenHistory (entries : List Entry) (options : HistoryFilter) : List Entry :=
  let es := entries
  let es := match options.startDate with
    | some start => es.filter (fun e => decide (start ≤ e.timestamp))
    | none => es
  let es := match options.endDate with
    | some stop => es.filter (fun e => decide (e.timestamp ≤ stop))
    | none => es
  let es := match options.project with
    | some p => es.filter (fun e => e.project == p)
    | none => es
  let es := match options.operation with
    | some op => es.filter (fun e => e.operation == op)
    | none => es
  es

/-- Spec-side predicate: an entry matches the filter (time range with
inclusive bounds, project label, operation label). Used to compare the code
path against the words of the specification. -/
def matchesFilter (options : HistoryFilter) (e : Entry) : Bool :=
  (match options.startDate with
    | some start => decide (start ≤ e.timestamp)
    | none => true) &&
  (match options.endDate with
    | some stop => decide (e.timestamp ≤ stop)
    | none => true) &&
  (match options.project with
    | some p => e.project == p
    | none => true) &&
  (match options.operation with
    | some op => e.operation == op
    | none => true)

/-! ## project-id.js -/

def PLATFORM_CODES : List (String × String) :=
  [("WEB", "W"), ("DATABASE", "D"), ("API", "A"), ("ZHONG", "Z"), ("UNITY", "U")]

/-- `getPlatformCode` / the lookup inside `generateProjectId`:
`PLATFORM_CODES[type?.toUpperCase()] || 'X'`. -/
def getPlatformCode (type : String) : String :=
  ((PLATFORM_CODES.find? (fun e => e.1 == jsToUpper type)).map (·.2)).getD "X"

/-- `generateProjectId({date, type, projectNumber})`: the source reads
`date.getFullYear()` and `date.getMonth()`; the date is embedded as its
`year` and `month` (0-11) components. -/
def generateProjectId (year month : Nat) (type : String) (projectNumber : Nat) : String :=
  let yy := sliceLast2 (toString year)
  let quarter := month / 3 + 1
  let platformCode := getPlatformCode type
  let paddedNumber := padStart2 (toString projectNumber)
  yy ++ "Q" ++ toString quarter ++ platformCode ++ paddedNumber

structure ParsedProjectId where
  year : Nat
  quarter : Nat
  platformCode : String
  platformType : String
  projectNumber : Nat
  fullYear : Nat
  quarterLabel : String
  deriving Repr, DecidableEq

/-- The reverse lookup of `parseProjectId`: `codeToPrimaryName[code]`, then a
fallback scan of `PLATFORM_CODES`, then `'UNKNOWN'`. -/
def platformTypeOfCode (code : String) : String :=
  let codeToPrimaryName : List (String × String) :=
    [("W", "WEB"), ("D", "DATABASE"), ("A", "API"), ("U", "UNITY"), ("Z", "ZHONG")]
  match (codeToPrimaryName.find? (fun e => e.1 == code)).map (·.2) with
  | some n => n
  | none =>
    match PLATFORM_CODES.find? (fun e => e.2 == code) with
    | some e => e.1
    | none => "UNKNOWN"

/-- `parseProjectId(projectId)`: the regex `^(\d{2})Q(\d)([A-Z])(\d{2})$`
matched against the seven characters, with `parseInt('20' + yy)`. -/
def parseProjectId (projectId : String) : Option ParsedProjectId :=
  match projectId.toList with
  | [y1, y2, qch, q1, p, n1, n2] =>
    if y1.isDigit && y2.isDigit && (qch == 'Q') && q1.isDigit &&
        ('A' ≤ p && p ≤ 'Z') && n1.isDigit && n2.isDigit then
      let year := 2000 + (10 * charDigitVal y1 + charDigitVal y2)
      let quarter := charDigitVal q1
      let platformCode := String.mk [p]
      some { year := year
             quarter := quarter
             platformCode := platformCode
             platformType := platformTypeOfCode platformCode
             projectNumber := 10 * charDigitVal n1 + charDigitVal n2
             fullYear := year
             quarterLabel := "Q" ++ toString quarter }
    else none
  | _ => none

/-! ## scripts/sync-tokens-to-session.js (the Reconciler pass)

A database row as consumed by the script; `source` and the correlation ids
may be absent (`NULL` in the database / `undefined` on the row). -/

structure Row where
  hash : String := ""
  model : String := "unknown"
  fileName : Option String := none
  source : Option String := none
  createdAt : Nat := 0
  conversationId : Option String := none
  requestId : Option String := none
  deriving Repr, DecidableEq

/-- `entry_<createdAt>_<hash.substring(0, 8)>`. -/
def entryIdOfRow (row : Row) : String :=
  "entry_" ++ toString row.createdAt ++ "_" ++ row.hash.take 8

/-- The prompt-group key: `conversationId_requestId` when both are truthy,
else the per-minute bucket `prompt_<floor(createdAt / 60000)>`. -/
def promptKeyOfRow (row : Row) : String :=
  if jsStrTruthy row.conversationId && jsStrTruthy row.requestId then
    row.conversationId.getD "" ++ "_" ++ row.requestId.getD ""
  else
    "prompt_" ++ toString (row.createdAt / 60000)

/-- `Math.ceil(codeLength / 4)` where `codeLength = row.source ? row.source.length : 0`. -/
def estimatedTokensOfRow (row : Row) : Nat :=
  ((row.source.getD "").length + 3) / 4

/-- Accumulator of the `rows.forEach` loop of the script: running token sum,
new entry ids in order, and the insertion-ordered key set of the
`promptGroups` `Map`. -/
structure SyncAcc where
  newTokens : Nat := 0
  newEntryIds : List String := []
  promptKeys : List String := []
  deriving Repr, DecidableEq

/-- One iteration of the `rows.forEach` loop. `existingIds` is the set of
entry ids captured from the session before the loop and never updated inside
it, exactly as in the source. -/
def processRow (existingIds : List String) (acc : SyncAcc) (row : Row) : SyncAcc :=
  let entryId := entryIdOfRow row
  if existingIds.contains entryId then acc
  else
    { newTokens := acc.newTokens + estimatedTokensOfRow row
      newEntryIds := acc.newEntryIds ++ [entryId]
      promptKeys := setAdd acc.promptKeys (promptKeyOfRow row) }

/-- The session update performed by `sync-tokens-to-session.js` on the active
session (lines 250-318): process all rows against the fixed `existingIds`
set, merge the new prompt-group keys into the deduplicated existing set,
append the new entry ids, and add the new token sum to the existing total. -/
def syncTokensToSession (session : Session) (rows : List Row) : Session :=
  let acc := rows.foldl (processRow session.tokenEntries) {}
  let existingPromptGroups := jsSet session.promptGroups
  let mergedPromptGroups := acc.promptKeys.foldl setAdd existingPromptGroups
  { session with
    promptGroups := mergedPromptGroups
    tokenEntries := session.tokenEntries ++ acc.newEntryIds
    totalTokens := session.totalTokens + acc.newTokens }

/-! ## session-manager (App.jsx lines 1473-2060) -/

def SESSION_TIMEOUT_MS : Nat := 2 * 60 * 60 * 1000

/-- `getLastActivityTime(session)`: the later of the session start, the
latest activity timestamp, and the latest timestamp among token-history
entries referenced by the session. -/
def getLastActivityTime (history : List Entry) (session : Session) : Nat :=
  let lastActivity := session.startTime
  let lastActivity :=
    if 0 < session.activities.length then
      let latestActivity := (session.activities.map (·.timestamp)).foldl max 0
      if lastActivity < latestActivity then latestActivity else lastActivity
    else lastActivity
  if 0 < session.tokenEntries.length then
    let sessionTokenEntries := history.filter (fun e =>
      match e.entryId with
      | some eid => session.tokenEntries.contains eid
      | none => false)
    if 0 < sessionTokenEntries.length then
      let latestToken := (sessionTokenEntries.map (·.timestamp)).foldl max 0
      if lastActivity < latestToken then latestToken else lastActivity
    else lastActivity
  else lastActivity

/-- The recomputation
`session.tokenEntries.map(find in history).filter(Boolean).reduce(sum, 0)`
shared by `endSession` and the timeout sweep. -/
def recomputedTokens (history : List Entry) (session : Session) : Nat :=
  ((session.tokenEntries.map (fun eid =>
      history.find? (fun e => e.entryId == some eid))).filterMap id).foldl
    (fun sum e => sum + e.tokensUsed) 0

/-- The token-total finalization rule: only when `totalTokens` is zero/unset,
recompute from the referenced entries and adopt the sum only if positive. -/
def finalizeTokens (history : List Entry) (session : Session) : Session :=
  if session.totalTokens = 0 then
    if 0 < recomputedTokens history session then
      { session with totalTokens := recomputedTokens history session }
    else session
  else session

/-- The per-session body of `checkAndEndTimedOutSessions`: skip ended
sessions; otherwise end the session when `now - lastActivity >= timeoutMs`,
finalizing tokens, stamping `endTime` and synthesizing a description when
none was set. The boolean reports whether the session was auto-ended. -/
def sweepSession (history : List Entry) (now timeoutMs : Nat) (session : Session) :
    Session × Bool :=
  if session.endTime.isSome then (session, false)
  else if (timeoutMs : Int) ≤ (now : Int) - (getLastActivityTime history session : Int) then
    ({ finalizeTokens history session with
        endTime := some now
        description :=
          if (finalizeTokens history session).description == "" then
            "Auto-ended after " ++
              toString (jsRoundHours
                ((now : Int) - (getLastActivityTime history session : Int))) ++
              " hours of inactivity"
          else (finalizeTokens history session).description }, true)
  else (session, false)

/-- One step of the `sessions.forEach` loop of the sweep, threading the
processed sessions, the collected ended ids, and the active pointer (cleared
when it references the session just ended). -/
def sweepStep (history : List Entry) (now timeoutMs : Nat)
    (acc : List Session × List String × Option String) (s : Session) :
    List Session × List String × Option String :=
  if (sweepSession history now timeoutMs s).2 then
    (acc.1 ++ [(sweepSession history now timeoutMs s).1],
     acc.2.1 ++ [(sweepSession history now timeoutMs s).1.id],
     if acc.2.2 == some (sweepSession history now timeoutMs s).1.id then none else acc.2.2)
  else (acc.1 ++ [(sweepSession history now timeoutMs s).1], acc.2.1, acc.2.2)

/-- `checkAndEndTimedOutSessions(timeoutMs)`: sweep every session, returning
the updated store and the ids of the sessions auto-ended. The source calls
`saveSessions` only when the returned id list is non-empty. -/
def checkAndEndTimedOutSessions (history : List Entry) (now timeoutMs : Nat)
    (st : SessionState) : SessionState × List String :=
  let r := st.sessions.foldl (sweepStep history now timeoutMs) ([], [], st.activeId)
  ({ sessions := r.1, activeId := r.2.2 }, r.2.1)

structure StartOptions where
  projectId : Option Nat := none
  projectCode : Option String := none
  projectName : Option String := none
  description : String := ""
  conversationId : Option String := none
  tags : List String := []
  deriving Repr, DecidableEq

/-- The `Session` constructor as invoked by `startSession`: a fresh id and
start time, empty entry/activity lists, zero tokens. -/
def newSession (id : String) (now : Nat) (options : StartOptions) : Session :=
  { id := id
    startTime := now
    endTime := none
    projectId := options.projectId
    projectCode := options.projectCode
    projectName := options.projectName
    description := options.description
    conversationId := options.conversationId
    tokenEntries := []
    totalTokens := 0
    activities := []
    tags := options.tags
    metadata := []
    promptGroups := [] }

/-- `startSession(options)`: run the timeout sweep, then return the existing
session unchanged when the active pointer resolves to a live session;
otherwise create, append and activate a fresh session. `freshId` stands for
the generated `session_<Date.now()>_<random>` id. -/
def startSession (history : List Entry) (now : Nat) (freshId : String)
    (options : StartOptions) (st : SessionState) : SessionState × Session :=
  let st1 := (checkAndEndTimedOutSessions history now SESSION_TIMEOUT_MS st).1
  let createNew : SessionState × Session :=
    let session := newSession freshId now options
    ({ sessions := st1.sessions ++ [session], activeId := some session.id }, session)
  match st1.activeId with
  | some activeId =>
    match st1.sessions.find? (fun s => s.id == activeId) with
    | some active => if active.endTime.isNone then (st1, active) else createNew
    | none => createNew
  | none => createNew

/-- The in-place update applied by `endSession` to the found live session:
optional description update, token finalization, `endTime` stamp. -/
def endedSession (history : List Entry) (now : Nat) (desc : Option String)
    (s : Session) : Session :=
  { finalizeTokens history
      (if jsStrTruthy desc then { s with description := desc.getD s.description } else s) with
    endTime := some now }

def endSessionsList (history : List Entry) (now : Nat) (desc : Option String) :
    List Session → String → List Session × Option Session
  | [], _ => ([], none)
  | s :: rest, activeId =>
    if s.id == activeId then
      if s.endTime.isSome then (s :: rest, some s)
      else (endedSession history now desc s :: rest, some (endedSession history now desc s))
    else
      (s :: (endSessionsList history now desc rest activeId).1,
       (endSessionsList history now desc rest activeId).2)

/-- `endSession(options)`: null when no active pointer is set; otherwise the
pointer is cleared in every branch, and the pointed-to session (when it
exists and is live) is finalized and stamped. An already-ended pointed-to
session is returned as-is; a dangling pointer yields null. -/
def endSession (history : List Entry) (now : Nat) (desc : Option String)
    (st : SessionState) : SessionState × Option Session :=
  match st.activeId with
  | none => (st, none)
  | some activeId =>
    ({ sessions := (endSessionsList history now desc st.sessions activeId).1
       activeId := none },
     (endSessionsList history now desc st.sessions activeId).2)

/-- `getActiveSession()`: sweep, then resolve the pointer against the store,
requiring `!s.endTime`. -/
def getActiveSession (history : List Entry) (now : Nat) (st : SessionState) :
    SessionState × Option Session :=
  let st1 := (checkAndEndTimedOutSessions history now SESSION_TIMEOUT_MS st).1
  match st1.activeId with
  | none => (st1, none)
  | some activeId =>
    (st1, st1.sessions.find? (fun s => s.id == activeId && s.endTime.isNone))

/-- The `findIndex` / guard / push part of `addTokenEntryToSession`. -/
def addEntryToSessions (sessionId entryId : String) :
    List Session → List Session × Bool
  | [] => ([], false)
  | s :: rest =>
    if s.id == sessionId then
      if s.endTime.isSome then (s :: rest, false)
      else if s.tokenEntries.contains entryId then (s :: rest, true)
      else ({ s with tokenEntries := s.tokenEntries ++ [entryId] } :: rest, true)
    else
      (s :: (addEntryToSessions sessionId entryId rest).1,
       (addEntryToSessions sessionId entryId rest).2)

/-- `addTokenEntryToSession(sessionId, entryId)`: sweep first, then append
the entry reference (set semantics) unless the session is missing or ended. -/
def addTokenEntryToSession (history : List Entry) (now : Nat)
    (sessionId entryId : String) (st : SessionState) : SessionState × Bool :=
  let st1 := (checkAndEndTimedOutSessions history now SESSION_TIMEOUT_MS st).1
  ({ st1 with sessions := (addEntryToSessions sessionId entryId st1.sessions).1 },
   (addEntryToSessions sessionId entryId st1.sessions).2)

structure ActivityInput where
  type : String := ""
  description : String := ""
  metadata : List (String × String) := []
  deriving Repr, DecidableEq

/-- The `findIndex` / guard / push part of `addActivityToSession`. -/
def addActivityToSessionsList (now : Nat) (sessionId : String) (activity : ActivityInput) :
    List Session → List Session × Bool
  | [] => ([], false)
  | s :: rest =>
    if s.id == sessionId then
      if s.endTime.isSome then (s :: rest, false)
      else
        ({ s with activities := s.activities ++
            [{ timestamp := now
               type := activity.type
               description := activity.description
               metadata := activity.metadata }] } :: rest, true)
    else
      (s :: (addActivityToSessionsList now sessionId activity rest).1,
       (addActivityToSessionsList now sessionId activity rest).2)

/-- `addActivityToSession(sessionId, activity)`: sweep first, then append a
timestamped activity record unless the session is missing or ended. -/
def addActivityToSession (history : List Entry) (now : Nat) (sessionId : String)
    (activity : ActivityInput) (st : SessionState) : SessionState × Bool :=
  let st1 := (checkAndEndTimedOutSessions history now SESSION_TIMEOUT_MS st).1
  ({ st1 with sessions := (addActivityToSessionsList now sessionId activity st1.sessions).1 },
   (addActivityToSessionsList now sessionId activity st1.sessions).2)

/-! ## App.jsx `syncSessionsFromFileSystem` (file tier to browser cache) -/

/-- The payload of the `/api/sessions` endpoint: the file-tier sessions and
active-session pointer. -/
structure FileData where
  sessions : List Session := []
  activeSessionId : Option String := none
  deriving Repr, DecidableEq

/-- `data.sessions.find(s => s.id === existing.id)` with the fallback to the
cached record, used by the merge: the file-tier version wins whenever the id
exists there. -/
def overrideFromFile (fileSessions : List Session) (existing : Session) : Session :=
  match fileSessions.find? (fun s => s.id == existing.id) with
  | some updated => updated
  | none => existing

/-- The merge of App.jsx lines 79-229, restricted to its effect on the
browser cache (the comparison of `totalTokens` / entry count / `endTime`
feeds only the console logging: the file-tier version is used for every
id present in both tiers regardless of the outcome). The whole merge is
skipped when the file tier reports no sessions, and the cached pointer is
replaced only when the file tier pointer is truthy. -/
def syncSessionsFromFileSystem (data : FileData) (cache : SessionState) : SessionState :=
  if 0 < data.sessions.length then
    let existingIds := cache.sessions.map (·.id)
    let newSessions := data.sessions.filter (fun s => !(existingIds.contains s.id))
    let updatedSessions := cache.sessions.map (overrideFromFile data.sessions)
    let mergedSessions := updatedSessions ++ newSessions
    { sessions := mergedSessions
      activeId :=
        if jsStrTruthy data.activeSessionId then data.activeSessionId
        else cache.activeId }
  else cache

/-! ## Supporting lemmas: JS Set and the Reconciler fold -/

theorem setAdd_nodup {l : List String} {x : String} (h : l.Nodup) : (setAdd l x).Nodup := by
  unfold setAdd
  split
  · exact h
  · next hx =>
    rw [List.nodup_append]
    refine ⟨h, List.nodup_singleton x, ?_⟩
    intro a ha hmem
    rw [List.mem_singleton] at hmem
    subst hmem
    exact hx (List.elem_iff.mpr ha)

theorem foldl_setAdd_nodup (l : List String) :
    ∀ acc : List String, acc.Nodup → (l.foldl setAdd acc).Nodup := by
  induction l with
  | nil => intro acc h; simpa using h
  | cons x l ih => intro acc h; exact ih (setAdd acc x) (setAdd_nodup h)

theorem foldl_setAdd_of_nodup (l : List String) :
    ∀ acc : List String, (acc ++ l).Nodup → l.foldl setAdd acc = acc ++ l := by
  induction l with
  | nil => intro acc _; simp
  | cons x l ih =>
    intro acc h
    have hxm : x ∉ acc := by
      intro hc
      rcases List.nodup_append.mp h with ⟨_, _, hd⟩
      exact hd hc (List.mem_cons_self x l)
    have hx : ¬ acc.contains x = true := fun hc => hxm (List.elem_iff.mp hc)
    have hstep : setAdd acc x = acc ++ [x] := by unfold setAdd; rw [if_neg hx]
    have hre : (acc ++ [x]) ++ l = acc ++ x :: l := by simp
    rw [List.foldl_cons, hstep, ih (acc ++ [x]) (by rw [hre]; exact h), hre]

theorem jsSet_nodup (l : List String) : (jsSet l).Nodup :=
  foldl_setAdd_nodup l [] List.nodup_nil

theorem jsSet_of_nodup {l : List String} (h : l.Nodup) : jsSet l = l := by
  unfold jsSet
  rw [foldl_setAdd_of_nodup l [] (by simpa using h)]
  simp

/-- Characterization of the `rows.forEach` accumulation: only rows whose
derived entry id is outside the fixed `existingIds` set contribute, each
contributing its token estimate, its entry id, and its prompt key. -/
theorem processRow_foldl (existingIds : List String) (rows : List Row) :
    ∀ acc : SyncAcc,
    rows.foldl (processRow existingIds) acc =
      { newTokens := acc.newTokens +
          ((rows.filter (fun r => !(existingIds.contains (entryIdOfRow r)))).map
            estimatedTokensOfRow).sum
        newEntryIds := acc.newEntryIds ++
          (rows.filter (fun r => !(existingIds.contains (entryIdOfRow r)))).map entryIdOfRow
        promptKeys :=
          ((rows.filter (fun r => !(existingIds.contains (entryIdOfRow r)))).map
            promptKeyOfRow).foldl setAdd acc.promptKeys } := by
  induction rows with
  | nil => intro acc; simp
  | cons r rows ih =>
    intro acc
    by_cases hr : existingIds.contains (entryIdOfRow r) = true
    · rw [List.foldl_cons]
      have hskip : processRow existingIds acc r = acc := by
        unfold processRow; rw [if_pos hr]
      rw [hskip, ih acc, List.filter_cons]
      simp only [hr, Bool.not_true, Bool.false_eq_true, if_false]
    · rw [List.foldl_cons]
      have hstep : processRow existingIds acc r =
          { newTokens := acc.newTokens + estimatedTokensOfRow r
            newEntryIds := acc.newEntryIds ++ [entryIdOfRow r]
            promptKeys := setAdd acc.promptKeys (promptKeyOfRow r) } := by
        unfold processRow; rw [if_neg hr]
      rw [hstep, ih _, List.filter_cons]
      have hcond : (!existingIds.contains (entryIdOfRow r)) = true := by
        simp only [Bool.not_eq_true']
        exact Bool.eq_false_iff.mpr hr
      rw [if_pos hcond]
      simp [Nat.add_assoc]

theorem syncTokens_totalTokens (session : Session) (rows : List Row) :
    (syncTokensToSession session rows).totalTokens =
      session.totalTokens +
        ((rows.filter (fun r => !(session.tokenEntries.contains (entryIdOfRow r)))).map
          estimatedTokensOfRow).sum := by
  unfold syncTokensToSession
  rw [processRow_foldl]
  simp

theorem syncTokens_tokenEntries (session : Session) (rows : List Row) :
    (syncTokensToSession session rows).tokenEntries =
      session.tokenEntries ++
        (rows.filter (fun r => !(session.tokenEntries.contains (entryIdOfRow r)))).map
          entryIdOfRow := by
  unfold syncTokensToSession
  rw [processRow_foldl]
  simp

theorem syncTokens_promptGroups (session : Session) (rows : List Row) :
    (syncTokensToSession session rows).promptGroups =
      (jsSet ((rows.filter (fun r => !(session.tokenEntries.contains (entryIdOfRow r)))).map
          promptKeyOfRow)).foldl setAdd (jsSet session.promptGroups) := by
  unfold syncTokensToSession
  rw [processRow_foldl]
  simp [jsSet]

/-- A pass that finds no new rows only deduplicates the stored prompt groups. -/
theorem syncTokens_no_new_rows (session : Session) (rows : List Row)
    (h : ∀ r ∈ rows, session.tokenEntries.contains (entryIdOfRow r)) :
    syncTokensToSession session rows = { session with promptGroups := jsSet session.promptGroups } := by
  have hf : rows.filter (fun r => !(session.tokenEntries.contains (entryIdOfRow r))) = [] := by
    rw [List.filter_eq_nil_iff]
    intro r hr
    simp only [Bool.not_eq_true', Bool.not_eq_false]
    exact h r hr
  unfold syncTokensToSession
  rw [processRow_foldl, hf]
  simp

/-- C1: the Reconciler pass (sync-tokens-to-session.js) is idempotent
against an unchanged external source: every row of the first run has its
derived entry id recorded in the session, so the second run adds no entries,
adds no prompt-group keys, and leaves the token total unchanged — the
session record is identical after the second run. -/
theorem reconciler_idempotent (session : Session) (rows : List Row) :
    syncTokensToSession (syncTokensToSession session rows) rows =
      syncTokensToSession session rows ∧
    (syncTokensToSession (syncTokensToSession session rows) rows).tokenEntries =
      (syncTokensToSession session rows).tokenEntries ∧
    (syncTokensToSession (syncTokensToSession session rows) rows).promptGroups =
      (syncTokensToSession session rows).promptGroups ∧
    (syncTokensToSession (syncTokensToSession session rows) rows).totalTokens =
      (syncTokensToSession session rows).totalTokens := by
  have hmem : ∀ r ∈ rows,
      (syncTokensToSession session rows).tokenEntries.contains (entryIdOfRow r) := by
    intro r hr
    rw [syncTokens_tokenEntries, List.elem_iff, List.mem_append]
    by_cases hc : session.tokenEntries.contains (entryIdOfRow r)
    · exact Or.inl (List.elem_iff.mp hc)
    · have hnot : entryIdOfRow r ∉ session.tokenEntries := fun hm => hc (List.elem_iff.mpr hm)
      exact Or.inr (List.mem_map_of_mem _ (List.mem_filter.mpr ⟨hr, by simpa using hnot⟩))
  have hpg : (syncTokensToSession session rows).promptGroups.Nodup := by
    rw [syncTokens_promptGroups]
    exact foldl_setAdd_nodup _ _ (jsSet_nodup _)
  have heq : syncTokensToSession (syncTokensToSession session rows) rows =
      syncTokensToSession session rows := by
    rw [syncTokens_no_new_rows _ rows hmem, jsSet_of_nodup hpg]
  exact ⟨heq, by rw [heq], by rw [heq], by rw [heq]⟩

/-- C2: a Reconciler pass adds to the session total exactly the sum, over
the rows whose derived entry id is not yet referenced by the session, of
`ceil(sourceLength / 4)`; in particular the total never decreases and is
never recomputed from scratch. -/
theorem reconciler_additive_totals (session : Session) (rows : List Row) :
    (syncTokensToSession session rows).totalTokens =
      session.totalTokens +
        ((rows.filter (fun r => !(session.tokenEntries.contains (entryIdOfRow r)))).map
          estimatedTokensOfRow).sum ∧
    session.totalTokens ≤ (syncTokensToSession session rows).totalTokens := by
  refine ⟨syncTokens_totalTokens session rows, ?_⟩
  rw [syncTokens_totalTokens]
  exact Nat.le_add_right _ _

/-! ## C9: getTokenHistory ordering -/

/-- The query path applies the four optional predicates by successive
`Array.prototype.filter` calls: the result is exactly the stored entries
matching the filter, in stored (insertion) order. -/
theorem getTokenHistory_eq_filter (entries : List Entry) (options : HistoryFilter) :
    getTokenHistory entries options = entries.filter (fun e => matchesFilter options e) := by
  obtain ⟨sd, ed, pj, op⟩ := options
  cases sd <;> cases ed <;> cases pj <;> cases op <;>
    simp [getTokenHistory, matchesFilter, List.filter_filter, Bool.and_comm,
      Bool.and_assoc, Bool.and_left_comm]

/-- C9 counterexample: the stored log is returned in insertion order, which
need not be timestamp-ascending — `getTokenHistory` performs no sort. -/
theorem getTokenHistory_not_sorted :
    (getTokenHistory [{ timestamp := 100 }, { timestamp := 50 }] {}).map Entry.timestamp
      = [100, 50] ∧
    ¬ List.Pairwise (fun a b : Entry => a.timestamp ≤ b.timestamp)
        (getTokenHistory [{ timestamp := 100 }, { timestamp := 50 }] {}) := by
  constructor
  · rfl
  · intro h
    have := List.rel_of_pairwise_cons h (List.mem_singleton.mpr rfl)
    exact absurd this (by decide)

/-- C9 amended: `getTokenHistory` returns exactly the entries matching the
filter (time range with inclusive bounds, project label, operation label) in
stored insertion order; no sort is applied, so the output is
timestamp-ascending precisely when the stored log already is. -/
theorem getTokenHistory_spec (entries : List Entry) (options : HistoryFilter) :
    getTokenHistory entries options = entries.filter (fun e => matchesFilter options e) ∧
    (List.Pairwise (fun a b : Entry => a.timestamp ≤ b.timestamp) entries →
      List.Pairwise (fun a b : Entry => a.timestamp ≤ b.timestamp)
        (getTokenHistory entries options)) := by
  refine ⟨getTokenHistory_eq_filter entries options, fun h => ?_⟩
  rw [getTokenHistory_eq_filter]
  exact h.sublist (List.filter_sublist entries)

/-- Witness for the sorted-input part of `getTokenHistory_spec`. -/
theorem getTokenHistory_spec_witness :
    List.Pairwise (fun a b : Entry => a.timestamp ≤ b.timestamp)
      (getTokenHistory [{ timestamp := 50 }, { timestamp := 100 }] {}) :=
  (getTokenHistory_spec [{ timestamp := 50 }, { timestamp := 100 }] {}).2
    (by simp [List.pairwise_cons])

/-! ## C4: project-id round trip -/

theorem mkAppend (a b : List Char) : String.mk a ++ String.mk b = String.mk (a ++ b) := rfl

theorem toListMk (l : List Char) : (String.mk l).toList = l := rfl

theorem yearYYFin : ∀ y : Fin 100, sliceLast2 (toString (2000 + y.val)) =
    String.mk [Nat.digitChar (y.val / 10), Nat.digitChar (y.val % 10)] := by decide

theorem quarterStrFin : ∀ m : Fin 12, toString (m.val / 3 + 1) =
    String.mk [Nat.digitChar (m.val / 3 + 1)] := by decide

theorem padNumFin : ∀ n : Fin 100, padStart2 (toString n.val) =
    String.mk [Nat.digitChar (n.val / 10), Nat.digitChar (n.val % 10)] := by decide

theorem digitCharFactsFin : ∀ d : Fin 10, (Nat.digitChar d.val).isDigit = true ∧
    charDigitVal (Nat.digitChar d.val) = d.val := by decide

theorem yearYY {y : Nat} (h : y ≤ 99) : sliceLast2 (toString (2000 + y)) =
    String.mk [Nat.digitChar (y / 10), Nat.digitChar (y % 10)] :=
  yearYYFin ⟨y, by omega⟩

theorem quarterStr {m : Nat} (h : m ≤ 11) : toString (m / 3 + 1) =
    String.mk [Nat.digitChar (m / 3 + 1)] :=
  quarterStrFin ⟨m, by omega⟩

theorem padNum {n : Nat} (h : n ≤ 99) : padStart2 (toString n) =
    String.mk [Nat.digitChar (n / 10), Nat.digitChar (n % 10)] :=
  padNumFin ⟨n, by omega⟩

theorem digitChar_isDigit {d : Nat} (h : d < 10) : (Nat.digitChar d).isDigit = true :=
  (digitCharFactsFin ⟨d, h⟩).1

theorem charDigitVal_digitChar {d : Nat} (h : d < 10) : charDigitVal (Nat.digitChar d) = d :=
  (digitCharFactsFin ⟨d, h⟩).2

/-- The generated identifier is the seven-character string
`yy Q q platform nn` whenever the inputs are in range. -/
theorem generate_shape {y month number : Nat} (hy : y ≤ 99) (hm : month ≤ 11)
    (hn : number ≤ 99) (type : String) (c : Char)
    (hc : getPlatformCode type = String.mk [c]) :
    generateProjectId (2000 + y) month type number =
      String.mk [Nat.digitChar (y / 10), Nat.digitChar (y % 10), 'Q',
        Nat.digitChar (month / 3 + 1), c, Nat.digitChar (number / 10),
        Nat.digitChar (number % 10)] := by
  simp only [generateProjectId]
  rw [yearYY hy, quarterStr hm, padNum hn, hc]
  rfl

/-- Parsing the seven-character shape succeeds and recovers the numeric
components digit by digit. -/
theorem parse_mk7 {y m n : Nat} (p : Char) (hy : y ≤ 99) (hm : m ≤ 11) (hn : n ≤ 99)
    (hp1 : 'A' ≤ p) (hp2 : p ≤ 'Z') :
    parseProjectId (String.mk [Nat.digitChar (y / 10), Nat.digitChar (y % 10), 'Q',
        Nat.digitChar (m / 3 + 1), p, Nat.digitChar (n / 10), Nat.digitChar (n % 10)]) =
      some { year := 2000 + y
             quarter := m / 3 + 1
             platformCode := String.mk [p]
             platformType := platformTypeOfCode (String.mk [p])
             projectNumber := n
             fullYear := 2000 + y
             quarterLabel := "Q" ++ toString (m / 3 + 1) } := by
  have hb1 : y / 10 < 10 := by omega
  have hb2 : y % 10 < 10 := by omega
  have hb3 : m / 3 + 1 < 10 := by omega
  have hb4 : n / 10 < 10 := by omega
  have hb5 : n % 10 < 10 := by omega
  unfold parseProjectId
  rw [toListMk]
  simp only [digitChar_isDigit hb1, digitChar_isDigit hb2, digitChar_isDigit hb3,
    digitChar_isDigit hb4, digitChar_isDigit hb5, charDigitVal_digitChar hb1,
    charDigitVal_digitChar hb2, charDigitVal_digitChar hb3, charDigitVal_digitChar hb4,
    charDigitVal_digitChar hb5, decide_eq_true hp1, decide_eq_true hp2, beq_self_eq_true,
    Bool.and_self, Bool.and_true, Bool.true_and, if_true]
  have hyy : 10 * (y / 10) + y % 10 = y := by omega
  have hnn : 10 * (n / 10) + n % 10 = n := by omega
  rw [hyy, hnn]

/-- C4: for every year in [2000, 2099], month of the quarter, known platform
and project number in [0, 99], parsing the generated identifier reproduces
the year, quarter, platform type and project number; an unknown platform
generates code `X`, which parses to platform type `UNKNOWN`, and any
unrecognized platform code parses to `UNKNOWN`. -/
theorem projectId_round_trip (year month : Nat) (type : String) (number : Nat)
    (hy1 : 2000 ≤ year) (hy2 : year ≤ 2099) (hm : month ≤ 11) (hn : number ≤ 99) :
    (type ∈ ["WEB", "DATABASE", "API", "UNITY", "ZHONG"] →
      parseProjectId (generateProjectId year month type number) =
        some { year := year
               quarter := month / 3 + 1
               platformCode := getPlatformCode type
               platformType := type
               projectNumber := number
               fullYear := year
               quarterLabel := "Q" ++ toString (month / 3 + 1) }) ∧
    (PLATFORM_CODES.find? (fun e => e.1 == jsToUpper type) = none →
      getPlatformCode type = "X" ∧
      parseProjectId (generateProjectId year month type number) =
        some { year := year
               quarter := month / 3 + 1
               platformCode := "X"
               platformType := "UNKNOWN"
               projectNumber := number
               fullYear := year
               quarterLabel := "Q" ++ toString (month / 3 + 1) }) ∧
    (∀ code : String, code ∉ ["W", "D", "A", "U", "Z"] →
      platformTypeOfCode code = "UNKNOWN") := by
  obtain ⟨y, rfl, hy⟩ : ∃ y, year = 2000 + y ∧ y ≤ 99 :=
    ⟨year - 2000, by omega, by omega⟩
  refine ⟨?_, ?_, ?_⟩
  · intro hmem
    simp only [List.mem_cons, List.not_mem_nil, or_false] at hmem
    rcases hmem with rfl | rfl | rfl | rfl | rfl
    · rw [generate_shape hy hm hn "WEB" 'W' (by decide),
        parse_mk7 'W' hy hm hn (by decide) (by decide)]
      rfl
    · rw [generate_shape hy hm hn "DATABASE" 'D' (by decide),
        parse_mk7 'D' hy hm hn (by decide) (by decide)]
      rfl
    · rw [generate_shape hy hm hn "API" 'A' (by decide),
        parse_mk7 'A' hy hm hn (by decide) (by decide)]
      rfl
    · rw [generate_shape hy hm hn "UNITY" 'U' (by decide),
        parse_mk7 'U' hy hm hn (by decide) (by decide)]
      rfl
    · rw [generate_shape hy hm hn "ZHONG" 'Z' (by decide),
        parse_mk7 'Z' hy hm hn (by decide) (by decide)]
      rfl
  · intro hfind
    have hpcX : getPlatformCode type = "X" := by
      unfold getPlatformCode
      rw [hfind]
      rfl
    refine ⟨hpcX, ?_⟩
    rw [generate_shape hy hm hn type 'X' (hpcX.trans (by decide)),
      parse_mk7 'X' hy hm hn (by decide) (by decide)]
    rfl
  · intro code hcode
    simp only [List.mem_cons, List.not_mem_nil, or_false, not_or] at hcode
    obtain ⟨h1, h2, h3, h4, h5⟩ := hcode
    have e1 : (([("W", "WEB"), ("D", "DATABASE"), ("A", "API"), ("U", "UNITY"),
        ("Z", "ZHONG")] : List (String × String)).find? (fun e => e.1 == code)) = none := by
      apply List.find?_eq_none.mpr
      intro x hx
      fin_cases hx <;> simp only [beq_iff_eq] <;>
        first
        | exact fun h => h1 h.symm
        | exact fun h => h2 h.symm
        | exact fun h => h3 h.symm
        | exact fun h => h4 h.symm
        | exact fun h => h5 h.symm
    have e2 : (PLATFORM_CODES.find? (fun e => e.2 == code)) = none := by
      apply List.find?_eq_none.mpr
      intro x hx
      fin_cases hx <;> simp only [beq_iff_eq] <;>
        first
        | exact fun h => h1 h.symm
        | exact fun h => h2 h.symm
        | exact fun h => h3 h.symm
        | exact fun h => h4 h.symm
        | exact fun h => h5 h.symm
    simp only [platformTypeOfCode, e1, e2, Option.map_none']

/-- Witness for the round-trip theorem at `(2026, Q1, WEB, 22)`. -/
theorem projectId_round_trip_witness :
    parseProjectId (generateProjectId 2026 0 "WEB" 22) =
      some { year := 2026, quarter := 1, platformCode := "W", platformType := "WEB",
             projectNumber := 22, fullYear := 2026, quarterLabel := "Q1" } :=
  (projectId_round_trip 2026 0 "WEB" 22 (by norm_num) (by norm_num) (by norm_num)
    (by norm_num)).1 (by decide)

/-! ## Supporting lemmas: the timeout sweep -/

/-- The timeout condition on a live session:
`now - lastActivityTime(session) >= timeoutMs`. -/
def sessionTimedOut (history : List Entry) (now timeoutMs : Nat) (s : Session) : Bool :=
  decide ((timeoutMs : Int) ≤ (now : Int) - (getLastActivityTime history s : Int))

/-- The evolution of the active pointer across the sweep loop: cleared at the
step that ends the session it references. -/
def actFold (act : Option String) (ids : List String) : Option String :=
  ids.foldl (fun a i => if a == some i then none else a) act

theorem actFold_none (ids : List String) : actFold none ids = none := by
  induction ids with
  | nil => rfl
  | cons i ids ih => simpa [actFold] using ih

theorem actFold_eq (ids : List String) :
    ∀ act : Option String, actFold act ids =
      if ids.any (fun i => act == some i) then none else act := by
  induction ids with
  | nil => intro act; simp [actFold]
  | cons i ids ih =>
    intro act
    have hstep : actFold act (i :: ids) =
        actFold (if act == some i then none else act) ids := rfl
    rw [hstep]
    cases h : (act == some i)
    · simp only [h, Bool.false_eq_true, if_false]
      rw [ih act]
      simp [List.any_cons, h]
    · simp only [h, if_true]
      rw [actFold_none]
      simp [List.any_cons, h]

theorem finalizeTokens_projections (history : List Entry) (s : Session) :
    (finalizeTokens history s).id = s.id ∧
    (finalizeTokens history s).startTime = s.startTime ∧
    (finalizeTokens history s).endTime = s.endTime ∧
    (finalizeTokens history s).description = s.description ∧
    (finalizeTokens history s).tokenEntries = s.tokenEntries ∧
    (finalizeTokens history s).activities = s.activities ∧
    (finalizeTokens history s).promptGroups = s.promptGroups := by
  unfold finalizeTokens
  split
  · split <;> exact ⟨rfl, rfl, rfl, rfl, rfl, rfl, rfl⟩
  · exact ⟨rfl, rfl, rfl, rfl, rfl, rfl, rfl⟩

/-- The `totalTokens` reconciliation rule, read off the code: recompute only
from zero, adopt only a positive sum. -/
theorem finalizeTokens_totalTokens (history : List Entry) (s : Session) :
    (finalizeTokens history s).totalTokens =
      if s.totalTokens = 0 then
        (if 0 < recomputedTokens history s then recomputedTokens history s
         else s.totalTokens)
      else s.totalTokens := by
  unfold finalizeTokens
  split
  · split <;> rfl
  · rfl

theorem sweepSession_of_ended {history : List Entry} {now timeoutMs : Nat} {s : Session}
    (h : s.endTime.isSome) : sweepSession history now timeoutMs s = (s, false) := by
  unfold sweepSession
  rw [if_pos h]

theorem sweepSession_snd_eq (history : List Entry) (now timeoutMs : Nat) (s : Session) :
    (sweepSession history now timeoutMs s).2 =
      (s.endTime.isNone && sessionTimedOut history now timeoutMs s) := by
  unfold sweepSession
  split
  · next h =>
    have hn : s.endTime.isNone = false := by
      cases he : s.endTime <;> simp_all
    simp [hn]
  · next h =>
    have hn : s.endTime.isNone = true := by
      cases he : s.endTime <;> simp_all
    split
    · next hc => simp [hn, sessionTimedOut, hc]
    · next hc => simp [hn, sessionTimedOut, hc]

theorem sweepSession_fst_of_false {history : List Entry} {now timeoutMs : Nat} {s : Session}
    (h : (sweepSession history now timeoutMs s).2 = false) :
    (sweepSession history now timeoutMs s).1 = s := by
  unfold sweepSession at h ⊢
  split at h
  · next he => rw [if_pos he]
  · next he =>
    split at h
    · simp at h
    · next hc => rw [if_neg he, if_neg hc]

theorem sweepSession_fst_id (history : List Entry) (now timeoutMs : Nat) (s : Session) :
    (sweepSession history now timeoutMs s).1.id = s.id := by
  unfold sweepSession
  split
  · rfl
  · split
    · exact (finalizeTokens_projections history s).1
    · rfl

theorem sweepSession_endTime_of_true {history : List Entry} {now timeoutMs : Nat} {s : Session}
    (h : (sweepSession history now timeoutMs s).2 = true) :
    (sweepSession history now timeoutMs s).1.endTime = some now := by
  unfold sweepSession at h ⊢
  split at h
  · simp at h
  · next he =>
    split at h
    · next hc => rw [if_neg he, if_pos hc]
    · simp at h

theorem sweepSession_idem (history : List Entry) (now timeoutMs : Nat) (s : Session) :
    sweepSession history now timeoutMs ((sweepSession history now timeoutMs s).1) =
      ((sweepSession history now timeoutMs s).1, false) := by
  cases hq : (sweepSession history now timeoutMs s).2
  · rw [sweepSession_fst_of_false hq]
    have : sweepSession history now timeoutMs s =
        ((sweepSession history now timeoutMs s).1, (sweepSession history now timeoutMs s).2) := rfl
    rw [this, hq, sweepSession_fst_of_false hq]
  · exact sweepSession_of_ended (by rw [sweepSession_endTime_of_true hq]; rfl)

theorem sweep_foldl (history : List Entry) (now timeoutMs : Nat) (l : List Session) :
    ∀ (done : List Session) (ended : List String) (act : Option String),
    l.foldl (sweepStep history now timeoutMs) (done, ended, act) =
      (done ++ l.map (fun s => (sweepSession history now timeoutMs s).1),
       ended ++ (l.filter (fun s => (sweepSession history now timeoutMs s).2)).map
         (fun s => (sweepSession history now timeoutMs s).1.id),
       actFold act ((l.filter (fun s => (sweepSession history now timeoutMs s).2)).map
         (fun s => (sweepSession history now timeoutMs s).1.id))) := by
  induction l with
  | nil => intro done ended act; simp [actFold]
  | cons s l ih =>
    intro done ended act
    rw [List.foldl_cons]
    rcases hsw : sweepSession history now timeoutMs s with ⟨s', b⟩
    cases b
    · have hstep : sweepStep history now timeoutMs (done, ended, act) s =
          (done ++ [s'], ended, act) := by
        simp [sweepStep, hsw]
      rw [hstep, ih]
      simp [List.filter_cons, hsw]
    · have hstep : sweepStep history now timeoutMs (done, ended, act) s =
          (done ++ [s'], ended ++ [s'.id], if act == some s'.id then none else act) := by
        simp [sweepStep, hsw]
      rw [hstep, ih]
      simp [List.filter_cons, hsw, actFold]

/-- The sweep, in closed form: the sessions are swept pointwise, the ended
ids are those of the live timed-out sessions, and the pointer is cleared
when (and only when) it references one of them. -/
theorem checkAndEnd_eq (history : List Entry) (now timeoutMs : Nat) (st : SessionState) :
    checkAndEndTimedOutSessions history now timeoutMs st =
      ({ sessions := st.sessions.map (fun s => (sweepSession history now timeoutMs s).1)
         activeId := actFold st.activeId
           ((st.sessions.filter (fun s => (sweepSession history now timeoutMs s).2)).map
             (fun s => (sweepSession history now timeoutMs s).1.id)) },
       (st.sessions.filter (fun s => (sweepSession history now timeoutMs s).2)).map
         (fun s => (sweepSession history now timeoutMs s).1.id)) := by
  unfold checkAndEndTimedOutSessions
  rw [sweep_foldl]
  simp

theorem checkAndEnd_ended_ids (history : List Entry) (now timeoutMs : Nat) (st : SessionState) :
    (checkAndEndTimedOutSessions history now timeoutMs st).2 =
      (st.sessions.filter (fun s => s.endTime.isNone &&
        sessionTimedOut history now timeoutMs s)).map Session.id := by
  rw [checkAndEnd_eq]
  have hfe : st.sessions.filter (fun s => (sweepSession history now timeoutMs s).2) =
      st.sessions.filter (fun s => s.endTime.isNone && sessionTimedOut history now timeoutMs s) :=
    List.filter_congr (fun s _ => sweepSession_snd_eq history now timeoutMs s)
  rw [hfe]
  exact List.map_congr_left (fun s _ => sweepSession_fst_id history now timeoutMs s)

/-- Second immediate invocation of the sweep: fixed point, nothing ended. -/
theorem checkAndEnd_idem (history : List Entry) (now timeoutMs : Nat) (st : SessionState) :
    checkAndEndTimedOutSessions history now timeoutMs
        (checkAndEndTimedOutSessions history now timeoutMs st).1 =
      ((checkAndEndTimedOutSessions history now timeoutMs st).1, []) := by
  rw [checkAndEnd_eq history now timeoutMs st]
  rw [checkAndEnd_eq]
  have hfix : ∀ x ∈ (st.sessions.map (fun s => (sweepSession history now timeoutMs s).1)),
      sweepSession history now timeoutMs x = (x, false) := by
    intro x hx
    rcases List.mem_map.mp hx with ⟨s, _, rfl⟩
    exact sweepSession_idem history now timeoutMs s
  have hmapfix : (st.sessions.map (fun s => (sweepSession history now timeoutMs s).1)).map
      (fun s => (sweepSession history now timeoutMs s).1) =
      st.sessions.map (fun s => (sweepSession history now timeoutMs s).1) := by
    rw [List.map_congr_left (fun x hx => by rw [hfix x hx])]
    simp
  have hfilfix : (st.sessions.map (fun s => (sweepSession history now timeoutMs s).1)).filter
      (fun s => (sweepSession history now timeoutMs s).2) = [] := by
    rw [List.filter_eq_nil_iff]
    intro x hx
    rw [hfix x hx]
    simp
  rw [hmapfix, hfilfix]
  simp [actFold]

theorem ite_lt_max (a b : Nat) : (if a < b then b else a) = max a b := by
  split
  · next h => exact (Nat.max_eq_right (Nat.le_of_lt h)).symm
  · next h => exact (Nat.max_eq_left (Nat.not_lt.mp h)).symm

theorem tokenPartMax (history : List Entry) (s : Session) (X : Nat) :
    (if 0 < s.tokenEntries.length then
      (if 0 < (history.filter (fun e =>
          match e.entryId with
          | some eid => s.tokenEntries.contains eid
          | none => false)).length then
        (if X < ((history.filter (fun e =>
            match e.entryId with
            | some eid => s.tokenEntries.contains eid
            | none => false)).map (·.timestamp)).foldl max 0 then
          ((history.filter (fun e =>
            match e.entryId with
            | some eid => s.tokenEntries.contains eid
            | none => false)).map (·.timestamp)).foldl max 0
         else X)
       else X)
     else X) =
      max X (((history.filter (fun e =>
        match e.entryId with
        | some eid => s.tokenEntries.contains eid
        | none => false)).map (·.timestamp)).foldl max 0) := by
  by_cases ht : 0 < s.tokenEntries.length
  · rw [if_pos ht]
    by_cases hf : 0 < (history.filter (fun e =>
        match e.entryId with
        | some eid => s.tokenEntries.contains eid
        | none => false)).length
    · rw [if_pos hf, ite_lt_max]
    · have hnil : history.filter (fun e =>
          match e.entryId with
          | some eid => s.tokenEntries.contains eid
          | none => false) = [] := List.length_eq_zero.mp (by omega)
      rw [if_neg hf, hnil]
      simp
  · have hte : s.tokenEntries = [] := List.length_eq_zero.mp (by omega)
    have hnil : history.filter (fun e =>
        match e.entryId with
        | some eid => s.tokenEntries.contains eid
        | none => false) = [] := by
      rw [List.filter_eq_nil_iff]
      intro e _
      cases e.entryId <;> simp [hte]
    rw [if_neg ht, hnil]
    simp

/-- `getLastActivityTime` is the maximum of the session start, the latest
activity timestamp, and the latest timestamp among history entries whose
`entryId` is referenced by the session (each part taken as 0 when absent). -/
theorem getLastActivityTime_eq_max (history : List Entry) (s : Session) :
    getLastActivityTime history s =
      max (max s.startTime ((s.activities.map (·.timestamp)).foldl max 0))
        (((history.filter (fun e =>
          match e.entryId with
          | some eid => s.tokenEntries.contains eid
          | none => false)).map (·.timestamp)).foldl max 0) := by
  simp only [getLastActivityTime]
  by_cases ha : 0 < s.activities.length
  · rw [if_pos ha,
      ite_lt_max s.startTime ((s.activities.map (·.timestamp)).foldl max 0)]
    exact tokenPartMax history s _
  · have hae : s.activities = [] := List.length_eq_zero.mp (by omega)
    rw [if_neg ha]
    have h0 : ((s.activities.map (·.timestamp)).foldl max 0) = 0 := by
      rw [hae]
      rfl
    rw [h0, Nat.max_zero]
    exact tokenPartMax history s s.startTime

/-- C6: the timeout sweep ends exactly the live sessions whose inactivity
(now minus the max of start time, latest activity timestamp and latest
resolvable referenced-entry timestamp) reaches the threshold; it stamps
`endTime := now` on those, never modifies already-ended sessions, clears the
active pointer only when it references a session being auto-ended, and a
second immediate invocation is a no-op ending nothing (hence no write: the
source writes only when the ended-id list is non-empty). -/
theorem timeout_sweep_spec (history : List Entry) (now timeoutMs : Nat) (st : SessionState) :
    (checkAndEndTimedOutSessions history now timeoutMs st).2 =
      (st.sessions.filter (fun s => s.endTime.isNone &&
        sessionTimedOut history now timeoutMs s)).map Session.id ∧
    (checkAndEndTimedOutSessions history now timeoutMs st).1.sessions =
      st.sessions.map (fun s => (sweepSession history now timeoutMs s).1) ∧
    (∀ s : Session, s.endTime.isSome →
      sweepSession history now timeoutMs s = (s, false)) ∧
    (∀ s : Session, (sweepSession history now timeoutMs s).2 = true →
      (sweepSession history now timeoutMs s).1.endTime = some now) ∧
    (checkAndEndTimedOutSessions history now timeoutMs st).1.activeId =
      (if (checkAndEndTimedOutSessions history now timeoutMs st).2.any
          (fun i => st.activeId == some i) then none else st.activeId) ∧
    checkAndEndTimedOutSessions history now timeoutMs
        (checkAndEndTimedOutSessions history now timeoutMs st).1 =
      ((checkAndEndTimedOutSessions history now timeoutMs st).1, []) ∧
    (∀ s : Session, getLastActivityTime history s =
      max (max s.startTime ((s.activities.map (·.timestamp)).foldl max 0))
        (((history.filter (fun e =>
          match e.entryId with
          | some eid => s.tokenEntries.contains eid
          | none => false)).map (·.timestamp)).foldl max 0)) := by
  refine ⟨checkAndEnd_ended_ids history now timeoutMs st, ?_,
    fun s h => sweepSession_of_ended h,
    fun s h => sweepSession_endTime_of_true h, ?_,
    checkAndEnd_idem history now timeoutMs st,
    fun s => getLastActivityTime_eq_max history s⟩
  · rw [checkAndEnd_eq]
  · rw [checkAndEnd_eq]
    exact actFold_eq _ st.activeId

/-- Witness: a live session inactive for exactly the threshold is auto-ended
(and listed), while an already-ended session is untouched by the sweep. -/
theorem timeout_sweep_spec_witness :
    (checkAndEndTimedOutSessions [] 7200000 SESSION_TIMEOUT_MS
        { sessions := [{ id := "s1", startTime := 0 }], activeId := some "s1" }).2 = ["s1"] ∧
    sweepSession [] 7200000 SESSION_TIMEOUT_MS
        { id := "s2", startTime := 0, endTime := some 5 } =
      ({ id := "s2", startTime := 0, endTime := some 5 }, false) := by
  have h := timeout_sweep_spec [] 7200000 SESSION_TIMEOUT_MS
    { sessions := [{ id := "s1", startTime := 0 }], activeId := some "s1" }
  refine ⟨?_, h.2.2.1 _ (by decide)⟩
  rw [h.1]
  decide

/-! ## C5: ended sessions are immutable under entry/activity addition -/

theorem find_id_map (l : List Session) (sid : String) (f : Session → Session)
    (hf : ∀ s, (f s).id = s.id) :
    (l.map f).find? (fun x => x.id == sid) = (l.find? (fun x => x.id == sid)).map f := by
  induction l with
  | nil => rfl
  | cons s l ih =>
    simp only [List.map_cons]
    cases h : (s.id == sid)
    · rw [List.find?_cons_of_neg _ (by simp [hf s, h]),
        List.find?_cons_of_neg _ (by simp [h]), ih]
    · rw [List.find?_cons_of_pos _ (by simp [hf s, h]),
        List.find?_cons_of_pos _ (by simp [h])]
      rfl

/-- The sweep leaves a session found ended in place and unchanged. -/
theorem checkAndEnd_find_ended (history : List Entry) (now timeoutMs : Nat)
    (st : SessionState) (sid : String) (s : Session)
    (hfind : st.sessions.find? (fun x => x.id == sid) = some s)
    (he : s.endTime.isSome) :
    (checkAndEndTimedOutSessions history now timeoutMs st).1.sessions.find?
      (fun x => x.id == sid) = some s := by
  rw [checkAndEnd_eq]
  show (st.sessions.map (fun x => (sweepSession history now timeoutMs x).1)).find?
      (fun x => x.id == sid) = some s
  rw [find_id_map _ _ _ (fun x => sweepSession_fst_id history now timeoutMs x), hfind]
  simp [sweepSession_of_ended he]

theorem addEntry_of_ended (sessionId entryId : String) (l : List Session) (s : Session)
    (hfind : l.find? (fun x => x.id == sessionId) = some s) (he : s.endTime.isSome) :
    addEntryToSessions sessionId entryId l = (l, false) := by
  induction l with
  | nil => simp at hfind
  | cons a l ih =>
    cases h : (a.id == sessionId)
    · rw [List.find?_cons_of_neg _ (by simp [h])] at hfind
      simp only [addEntryToSessions, h, Bool.false_eq_true, if_false]
      rw [ih hfind]
    · rw [List.find?_cons_of_pos _ (by simp [h])] at hfind
      obtain rfl : a = s := by injection hfind
      simp only [addEntryToSessions, h, if_true, he]

theorem addActivity_of_ended (now : Nat) (sessionId : String) (activity : ActivityInput)
    (l : List Session) (s : Session)
    (hfind : l.find? (fun x => x.id == sessionId) = some s) (he : s.endTime.isSome) :
    addActivityToSessionsList now sessionId activity l = (l, false) := by
  induction l with
  | nil => simp at hfind
  | cons a l ih =>
    cases h : (a.id == sessionId)
    · rw [List.find?_cons_of_neg _ (by simp [h])] at hfind
      simp only [addActivityToSessionsList, h, Bool.false_eq_true, if_false]
      rw [ih hfind]
    · rw [List.find?_cons_of_pos _ (by simp [h])] at hfind
      obtain rfl : a = s := by injection hfind
      simp only [addActivityToSessionsList, h, if_true, he]

/-- C5: against a session whose `endTime` is set, `addTokenEntryToSession`
and `addActivityToSession` report failure and leave that session record
entirely unchanged (the preceding timeout sweep never touches ended
sessions). -/
theorem ended_session_immutable (history : List Entry) (now : Nat)
    (sessionId entryId : String) (activity : ActivityInput) (st : SessionState)
    (s : Session)
    (hfind : st.sessions.find? (fun x => x.id == sessionId) = some s)
    (he : s.endTime.isSome) :
    (addTokenEntryToSession history now sessionId entryId st).2 = false ∧
    (addTokenEntryToSession history now sessionId entryId st).1.sessions.find?
      (fun x => x.id == sessionId) = some s ∧
    (addActivityToSession history now sessionId activity st).2 = false ∧
    (addActivityToSession history now sessionId activity st).1.sessions.find?
      (fun x => x.id == sessionId) = some s := by
  have h1 := checkAndEnd_find_ended history now SESSION_TIMEOUT_MS st sessionId s hfind he
  have hadd := addEntry_of_ended sessionId entryId
    (checkAndEndTimedOutSessions history now SESSION_TIMEOUT_MS st).1.sessions s h1 he
  have hact := addActivity_of_ended now sessionId activity
    (checkAndEndTimedOutSessions history now SESSION_TIMEOUT_MS st).1.sessions s h1 he
  unfold addTokenEntryToSession addActivityToSession
  dsimp only
  rw [hadd, hact]
  exact ⟨rfl, h1, rfl, h1⟩

/-- Witness: adding an entry or an activity to an ended session fails and
leaves it unchanged. -/
theorem ended_session_immutable_witness :
    (addTokenEntryToSession [] 10 "s1" "e1"
      { sessions := [{ id := "s1", startTime := 0, endTime := some 5 }],
        activeId := none }).2 = false ∧
    (addTokenEntryToSession [] 10 "s1" "e1"
      { sessions := [{ id := "s1", startTime := 0, endTime := some 5 }],
        activeId := none }).1.sessions.find? (fun x => x.id == "s1") =
      some { id := "s1", startTime := 0, endTime := some 5 } ∧
    (addActivityToSession [] 10 "s1" { type := "build" }
      { sessions := [{ id := "s1", startTime := 0, endTime := some 5 }],
        activeId := none }).2 = false ∧
    (addActivityToSession [] 10 "s1" { type := "build" }
      { sessions := [{ id := "s1", startTime := 0, endTime := some 5 }],
        activeId := none }).1.sessions.find? (fun x => x.id == "s1") =
      some { id := "s1", startTime := 0, endTime := some 5 } :=
  ended_session_immutable [] 10 "s1" "e1" { type := "build" }
    { sessions := [{ id := "s1", startTime := 0, endTime := some 5 }], activeId := none }
    { id := "s1", startTime := 0, endTime := some 5 } (by decide) (by decide)

/-! ## C3: start while a session is active -/

/-- A sweep in which every session is a fixed point returns the store
unchanged and ends nothing. -/
theorem checkAndEnd_noop (history : List Entry) (now timeoutMs : Nat) (st : SessionState)
    (h : ∀ s ∈ st.sessions, sweepSession history now timeoutMs s = (s, false)) :
    checkAndEndTimedOutSessions history now timeoutMs st = (st, []) := by
  rw [checkAndEnd_eq]
  have hmap : st.sessions.map (fun s => (sweepSession history now timeoutMs s).1) =
      st.sessions := by
    rw [List.map_congr_left (fun x hx => by rw [h x hx])]
    simp
  have hfil : st.sessions.filter (fun s => (sweepSession history now timeoutMs s).2) = [] := by
    rw [List.filter_eq_nil_iff]
    intro x hx
    rw [h x hx]
    simp
  rw [hmap, hfil]
  simp [actFold]

theorem getLastActivityTime_newSession (history : List Entry) (freshId : String)
    (now : Nat) (options : StartOptions) :
    getLastActivityTime history (newSession freshId now options) = now := by
  simp [getLastActivityTime, newSession]

/-- A live session whose last activity is not in the past is never swept. -/
theorem sweepSession_fresh (history : List Entry) (now : Nat) (s : Session)
    (he : s.endTime = none) (hst : now ≤ getLastActivityTime history s) :
    sweepSession history now SESSION_TIMEOUT_MS s = (s, false) := by
  have hc : ¬ ((SESSION_TIMEOUT_MS : Int) ≤
      (now : Int) - (getLastActivityTime history s : Int)) := by
    simp only [SESSION_TIMEOUT_MS]
    omega
  unfold sweepSession
  rw [he]
  rw [if_neg (by simp), if_neg hc]

/-- When every stored session is already ended, `startSession` creates,
appends and activates a fresh session. -/
theorem startSession_creates (history : List Entry) (now : Nat) (freshId : String)
    (options : StartOptions) (st0 : SessionState)
    (hend : ∀ s ∈ st0.sessions, s.endTime.isSome) :
    startSession history now freshId options st0 =
      ({ sessions := st0.sessions ++ [newSession freshId now options]
         activeId := some freshId }, newSession freshId now options) := by
  unfold startSession
  rw [checkAndEnd_noop history now SESSION_TIMEOUT_MS st0
    (fun s hs => sweepSession_of_ended (hend s hs))]
  dsimp only
  cases hact : st0.activeId with
  | none => rfl
  | some aid =>
    dsimp only
    cases hf : st0.sessions.find? (fun s => s.id == aid) with
    | none => rfl
    | some active =>
      have hae : active.endTime.isSome := hend active (List.mem_of_find?_eq_some hf)
      have hno : active.endTime.isNone = false := by
        cases hx : active.endTime <;> simp_all
      dsimp only
      rw [hno]
      rfl

/-- C3 counterexample: `start(A)` then `start(B)` with no intervening end
leaves A as the only session, still active with null `endTime`; the second
start returns A and never creates B. -/
theorem start_start_counterexample :
    ((startSession [] 0 "B" {} (startSession [] 0 "A" {} {}).1).1.sessions.map
      Session.id) = ["A"] ∧
    (startSession [] 0 "B" {} (startSession [] 0 "A" {} {}).1).2.id = "A" ∧
    (startSession [] 0 "B" {} (startSession [] 0 "A" {} {}).1).1.activeId = some "A" ∧
    ((startSession [] 0 "A" {} {}).1.sessions.map Session.endTime) = [none] := by
  decide

/-- C3 amended: starting B while A is active is a no-op returning A: exactly
one session is active afterwards and it is A (not B), A keeps a null
`endTime`, and no session B is created — the second start changes nothing. -/
theorem start_start_amended (history : List Entry) (now : Nat) (f1 f2 : String)
    (o1 o2 : StartOptions) (st0 : SessionState)
    (hend : ∀ s ∈ st0.sessions, s.endTime.isSome)
    (hfresh : ∀ s ∈ st0.sessions, (s.id == f1) = false) :
    (startSession history now f2 o2 (startSession history now f1 o1 st0).1).1 =
      (startSession history now f1 o1 st0).1 ∧
    (startSession history now f2 o2 (startSession history now f1 o1 st0).1).2 =
      newSession f1 now o1 ∧
    (newSession f1 now o1).endTime = none ∧
    (startSession history now f1 o1 st0).1.activeId = some f1 ∧
    (startSession history now f1 o1 st0).1.sessions.filter
      (fun s => s.endTime.isNone) = [newSession f1 now o1] := by
  rw [startSession_creates history now f1 o1 st0 hend]
  set ns := newSession f1 now o1 with hns
  have hnse : ns.endTime = none := rfl
  have hnsid : ns.id = f1 := rfl
  have hfix : ∀ s ∈ st0.sessions ++ [ns],
      sweepSession history now SESSION_TIMEOUT_MS s = (s, false) := by
    intro s hs
    rcases List.mem_append.mp hs with hs0 | hs1
    · exact sweepSession_of_ended (hend s hs0)
    · rw [List.mem_singleton.mp hs1]
      exact sweepSession_fresh history now ns hnse
        (le_of_eq (getLastActivityTime_newSession history f1 now o1).symm)
  have hswp : checkAndEndTimedOutSessions history now SESSION_TIMEOUT_MS
      { sessions := st0.sessions ++ [ns], activeId := some f1 } =
      ({ sessions := st0.sessions ++ [ns], activeId := some f1 }, []) :=
    checkAndEnd_noop history now SESSION_TIMEOUT_MS _ hfix
  have hfind : (st0.sessions ++ [ns]).find? (fun s => s.id == f1) = some ns := by
    rw [List.find?_append]
    have h0 : st0.sessions.find? (fun s => s.id == f1) = none :=
      List.find?_eq_none.mpr (fun x hx => by simp [hfresh x hx])
    rw [h0]
    simp [hnsid]
  have hsecond : startSession history now f2 o2
      { sessions := st0.sessions ++ [ns], activeId := some f1 } =
      ({ sessions := st0.sessions ++ [ns], activeId := some f1 }, ns) := by
    unfold startSession
    rw [hswp]
    dsimp only
    rw [hfind]
    dsimp only
    rw [show ns.endTime.isNone = true from by rw [hnse]; rfl]
    rfl
  have hfilter : (st0.sessions ++ [ns]).filter (fun s => s.endTime.isNone) = [ns] := by
    rw [List.filter_append]
    have h0 : st0.sessions.filter (fun s => s.endTime.isNone) = [] := by
      rw [List.filter_eq_nil_iff]
      intro x hx
      have := hend x hx
      cases hx2 : x.endTime <;> simp_all
    rw [h0]
    simp [hnse]
  exact ⟨by rw [hsecond], by rw [hsecond], hnse, rfl, hfilter⟩

/-- Witness for the amended start-start behavior from the empty store. -/
theorem start_start_amended_witness :
    (startSession [] 5 "B" {} (startSession [] 5 "A" {} {}).1).1 =
      (startSession [] 5 "A" {} {}).1 ∧
    (startSession [] 5 "B" {} (startSession [] 5 "A" {} {}).1).2 =
      newSession "A" 5 {} := by
  have h := start_start_amended [] 5 "A" "B" {} {} {} (by decide) (by decide)
  exact ⟨h.1, h.2.1⟩

/-! ## C7: endSession -/

theorem endSessionsList_none (history : List Entry) (now : Nat) (desc : Option String)
    (l : List Session) (activeId : String)
    (hfind : l.find? (fun x => x.id == activeId) = none) :
    endSessionsList history now desc l activeId = (l, none) := by
  induction l with
  | nil => rfl
  | cons a l ih =>
    rw [List.find?_eq_none] at hfind
    have ha : (a.id == activeId) = false := by
      have := hfind a (List.mem_cons_self a l)
      simpa using this
    have hrest : l.find? (fun x => x.id == activeId) = none :=
      List.find?_eq_none.mpr (fun x hx => hfind x (List.mem_cons_of_mem a hx))
    simp only [endSessionsList, ha, Bool.false_eq_true, if_false]
    rw [ih hrest]

theorem endSessionsList_ended (history : List Entry) (now : Nat) (desc : Option String)
    (l : List Session) (activeId : String) (s : Session)
    (hfind : l.find? (fun x => x.id == activeId) = some s) (he : s.endTime.isSome) :
    endSessionsList history now desc l activeId = (l, some s) := by
  induction l with
  | nil => simp at hfind
  | cons a l ih =>
    cases h : (a.id == activeId)
    · rw [List.find?_cons_of_neg _ (by simp [h])] at hfind
      simp only [endSessionsList, h, Bool.false_eq_true, if_false]
      rw [ih hfind]
    · rw [List.find?_cons_of_pos _ (by simp [h])] at hfind
      obtain rfl : a = s := by injection hfind
      simp only [endSessionsList, h, if_true, he]

theorem endedSession_id (history : List Entry) (now : Nat) (desc : Option String)
    (s : Session) : (endedSession history now desc s).id = s.id := by
  unfold endedSession
  show (finalizeTokens history _).id = s.id
  rw [(finalizeTokens_projections history _).1]
  split <;> rfl

theorem endedSession_endTime (history : List Entry) (now : Nat) (desc : Option String)
    (s : Session) : (endedSession history now desc s).endTime = some now := rfl

theorem endedSession_totalTokens (history : List Entry) (now : Nat) (desc : Option String)
    (s : Session) :
    (endedSession history now desc s).totalTokens =
      if s.totalTokens = 0 then
        (if 0 < recomputedTokens history s then recomputedTokens history s
         else s.totalTokens)
      else s.totalTokens := by
  unfold endedSession
  show (finalizeTokens history _).totalTokens = _
  have hXtot : (if jsStrTruthy desc then
      { s with description := desc.getD s.description } else s).totalTokens =
      s.totalTokens := by
    split <;> rfl
  have hXrec : recomputedTokens history (if jsStrTruthy desc then
      { s with description := desc.getD s.description } else s) =
      recomputedTokens history s := by
    split <;> rfl
  rw [finalizeTokens_totalTokens, hXtot, hXrec]

theorem endSessionsList_live (history : List Entry) (now : Nat) (desc : Option String)
    (l : List Session) (activeId : String) (s : Session)
    (hfind : l.find? (fun x => x.id == activeId) = some s) (he : s.endTime = none) :
    (endSessionsList history now desc l activeId).2 =
      some (endedSession history now desc s) ∧
    (endSessionsList history now desc l activeId).1.find? (fun x => x.id == activeId) =
      some (endedSession history now desc s) := by
  induction l with
  | nil => simp at hfind
  | cons a l ih =>
    cases h : (a.id == activeId)
    · rw [List.find?_cons_of_neg _ (by simp [h])] at hfind
      have := ih hfind
      simp only [endSessionsList, h, Bool.false_eq_true, if_false]
      refine ⟨this.1, ?_⟩
      rw [List.find?_cons_of_neg _ (by simp [h])]
      exact this.2
    · rw [List.find?_cons_of_pos _ (by simp [h])] at hfind
      have has : a = s := by injection hfind
      have hns : a.endTime.isSome = false := by rw [has, he]; rfl
      simp only [endSessionsList, h, if_true, hns, Bool.false_eq_true, if_false]
      rw [← has]
      refine ⟨rfl, ?_⟩
      rw [List.find?_cons_of_pos _ (by rw [endedSession_id]; exact h)]

/-- C7 counterexample: a stale pointer to an already-ended session makes
`endSession` return that session (non-null) although no session is active. -/
theorem endSession_stale_pointer_counterexample :
    (({ sessions := [{ id := "s1", startTime := 0, endTime := some 5 }],
        activeId := some "s1" } : SessionState).sessions.all
      (fun s => s.endTime.isSome)) = true ∧
    ((endSession [] 10 none
      { sessions := [{ id := "s1", startTime := 0, endTime := some 5 }],
        activeId := some "s1" }).2).isSome = true := by
  decide

/-- C7 amended: `endSession` returns null when the pointer is unset (store
untouched) or dangling (pointer cleared); a pointer to an already-ended
session is cleared and that session is returned unchanged; a pointer to a
live session clears the pointer, stamps `endTime := now`, and applies the
reconciliation rule: with `totalTokens` zero the recomputed entry sum is
adopted only when positive, and a non-zero `totalTokens` is left untouched. -/
theorem endSession_spec (history : List Entry) (now : Nat) (desc : Option String)
    (st : SessionState) :
    (st.activeId = none → endSession history now desc st = (st, none)) ∧
    (∀ aid, st.activeId = some aid →
      st.sessions.find? (fun x => x.id == aid) = none →
      endSession history now desc st = ({ st with activeId := none }, none)) ∧
    (∀ aid s, st.activeId = some aid →
      st.sessions.find? (fun x => x.id == aid) = some s → s.endTime.isSome →
      endSession history now desc st = ({ st with activeId := none }, some s)) ∧
    (∀ aid s, st.activeId = some aid →
      st.sessions.find? (fun x => x.id == aid) = some s → s.endTime = none →
      (endSession history now desc st).1.activeId = none ∧
      (endSession history now desc st).2 = some (endedSession history now desc s) ∧
      (endedSession history now desc s).endTime = some now ∧
      (endedSession history now desc s).totalTokens =
        (if s.totalTokens = 0 then
          (if 0 < recomputedTokens history s then recomputedTokens history s
           else s.totalTokens)
         else s.totalTokens) ∧
      (endSession history now desc st).1.sessions.find? (fun x => x.id == aid) =
        some (endedSession history now desc s)) := by
  refine ⟨?_, ?_, ?_, ?_⟩
  · intro h
    unfold endSession
    rw [h]
  · intro aid hact hfind
    unfold endSession
    rw [hact]
    dsimp only
    rw [endSessionsList_none history now desc st.sessions aid hfind]
  · intro aid s hact hfind he
    unfold endSession
    rw [hact]
    dsimp only
    rw [endSessionsList_ended history now desc st.sessions aid s hfind he]
  · intro aid s hact hfind he
    have h := endSessionsList_live history now desc st.sessions aid s hfind he
    unfold endSession
    rw [hact]
    dsimp only
    exact ⟨rfl, h.1, endedSession_endTime history now desc s,
      endedSession_totalTokens history now desc s, h.2⟩

/-- Witness: ending a live pointed-to session stamps its `endTime` and
clears the pointer; a non-zero total survives untouched. -/
theorem endSession_spec_witness :
    (endSession [] 10 none
      { sessions := [{ id := "s1", startTime := 0, totalTokens := 7 }],
        activeId := some "s1" }).1.activeId = none ∧
    (endSession [] 10 none
      { sessions := [{ id := "s1", startTime := 0, totalTokens := 7 }],
        activeId := some "s1" }).2 =
      some (endedSession [] 10 none { id := "s1", startTime := 0, totalTokens := 7 }) ∧
    (endedSession [] 10 none
      { id := "s1", startTime := 0, totalTokens := 7 }).totalTokens = 7 := by
  have h := (endSession_spec [] 10 none
    { sessions := [{ id := "s1", startTime := 0, totalTokens := 7 }],
      activeId := some "s1" }).2.2.2 "s1"
    { id := "s1", startTime := 0, totalTokens := 7 } rfl (by decide) rfl
  exact ⟨h.1, h.2.1, by rw [h.2.2.2.1]; decide⟩

/-! ## C10: a stale active pointer is never surfaced -/

/-- The sweep keeps a pointer that references only ended (or no) sessions:
it clears the pointer only for sessions it ends, which are live. -/
theorem checkAndEnd_activeId_stale (history : List Entry) (now timeoutMs : Nat)
    (st : SessionState) (aid : String) (hact : st.activeId = some aid)
    (hstale : ∀ s ∈ st.sessions, s.id = aid → s.endTime.isSome) :
    (checkAndEndTimedOutSessions history now timeoutMs st).1.activeId = some aid := by
  rw [checkAndEnd_eq]
  show actFold st.activeId _ = some aid
  rw [hact, actFold_eq]
  rw [if_neg ?_]
  intro hany
  rw [List.any_eq_true] at hany
  obtain ⟨i, hi, hbeq⟩ := hany
  obtain ⟨x, hxmem, rfl⟩ := List.mem_map.mp hi
  have hx := List.mem_filter.mp hxmem
  have hq : (sweepSession history now timeoutMs x).2 = true := hx.2
  rw [sweepSession_snd_eq] at hq
  have hnone : x.endTime.isNone = true := by
    cases hb : x.endTime.isNone
    · simp [hb] at hq
    · rfl
  have hid : x.id = aid := by
    rw [sweepSession_fst_id] at hbeq
    have h2 : aid = x.id := by simpa using hbeq
    exact h2.symm
  have hsome := hstale x hx.1 hid
  cases hxx : x.endTime <;> simp_all

/-- C10: when the stored pointer references a session that is absent or
already ended, `getActiveSession` returns null, `startSession` ignores the
stale pointer and creates/activates a fresh session, and `endSession` clears
the pointer, returning null for a missing session and the ended session
itself when it exists — never surfacing an ended session as active. -/
theorem stale_pointer_never_active (history : List Entry) (now : Nat) (freshId : String)
    (options : StartOptions) (desc : Option String) (st : SessionState) (aid : String)
    (hact : st.activeId = some aid)
    (hstale : ∀ s ∈ st.sessions, s.id = aid → s.endTime.isSome) :
    (getActiveSession history now st).2 = none ∧
    (startSession history now freshId options st).2 = newSession freshId now options ∧
    (startSession history now freshId options st).1.activeId = some freshId ∧
    (startSession history now freshId options st).1.sessions =
      (checkAndEndTimedOutSessions history now SESSION_TIMEOUT_MS st).1.sessions ++
        [newSession freshId now options] ∧
    (st.sessions.find? (fun x => x.id == aid) = none →
      endSession history now desc st = ({ st with activeId := none }, none)) ∧
    (∀ s, st.sessions.find? (fun x => x.id == aid) = some s →
      (endSession history now desc st).2 = some s ∧
      (endSession history now desc st).1 = { st with activeId := none }) := by
  have hptr := checkAndEnd_activeId_stale history now SESSION_TIMEOUT_MS st aid hact hstale
  have hfmap : (checkAndEndTimedOutSessions history now SESSION_TIMEOUT_MS st).1.sessions.find?
      (fun x => x.id == aid) =
      (st.sessions.find? (fun x => x.id == aid)).map
        (fun x => (sweepSession history now SESSION_TIMEOUT_MS x).1) := by
    rw [checkAndEnd_eq]
    exact find_id_map _ _ _ (fun x => sweepSession_fst_id history now SESSION_TIMEOUT_MS x)
  have hget : (getActiveSession history now st).2 = none := by
    unfold getActiveSession
    dsimp only
    rw [hptr]
    dsimp only
    rw [checkAndEnd_eq]
    dsimp only
    apply List.find?_eq_none.mpr
    intro y hy
    obtain ⟨x, hxm, rfl⟩ := List.mem_map.mp hy
    by_cases hid : x.id = aid
    · have hxe := hstale x hxm hid
      rw [sweepSession_of_ended hxe]
      have hnot : x.endTime.isNone = false := by cases hxx : x.endTime <;> simp_all
      simp [hnot]
    · rw [sweepSession_fst_id]
      simp [hid]
  have hstart : startSession history now freshId options st =
      ({ sessions := (checkAndEndTimedOutSessions history now SESSION_TIMEOUT_MS
            st).1.sessions ++ [newSession freshId now options],
         activeId := some freshId }, newSession freshId now options) := by
    unfold startSession
    dsimp only
    rw [hptr]
    dsimp only
    rw [hfmap]
    cases hf : st.sessions.find? (fun x => x.id == aid) with
    | none => rfl
    | some s =>
      have hsid : s.id = aid := by simpa using List.find?_some hf
      have hse : s.endTime.isSome := hstale s (List.mem_of_find?_eq_some hf) hsid
      simp only [Option.map_some']
      rw [sweepSession_of_ended hse]
      dsimp only
      have hnot : s.endTime.isNone = false := by cases hxx : s.endTime <;> simp_all
      rw [hnot]
      rfl
  refine ⟨hget, by rw [hstart], by rw [hstart], by rw [hstart], ?_, ?_⟩
  · intro hf
    unfold endSession
    rw [hact]
    dsimp only
    rw [endSessionsList_none history now desc st.sessions aid hf]
  · intro s hf
    have hsid : s.id = aid := by simpa using List.find?_some hf
    have hse : s.endTime.isSome := hstale s (List.mem_of_find?_eq_some hf) hsid
    unfold endSession
    rw [hact]
    dsimp only
    rw [endSessionsList_ended history now desc st.sessions aid s hf hse]
    exact ⟨rfl, rfl⟩

/-- Witness: a pointer to an ended session yields no active session, a fresh
session on start, and the ended session (with a cleared pointer) on end. -/
theorem stale_pointer_never_active_witness :
    (getActiveSession [] 10
      { sessions := [{ id := "s1", startTime := 0, endTime := some 5 }],
        activeId := some "s1" }).2 = none ∧
    (startSession [] 10 "f1" {}
      { sessions := [{ id := "s1", startTime := 0, endTime := some 5 }],
        activeId := some "s1" }).1.activeId = some "f1" ∧
    (endSession [] 10 none
      { sessions := [{ id := "s1", startTime := 0, endTime := some 5 }],
        activeId := some "s1" }).2 =
      some { id := "s1", startTime := 0, endTime := some 5 } := by
  have h := stale_pointer_never_active [] 10 "f1" {} none
    { sessions := [{ id := "s1", startTime := 0, endTime := some 5 }],
      activeId := some "s1" } "s1" rfl (by decide)
  exact ⟨h.1, h.2.2.1, (h.2.2.2.2.2 _ (by decide)).1⟩

/-! ## C8: the file-to-cache merge -/

theorem overrideFromFile_id (fileSessions : List Session) (existing : Session) :
    (overrideFromFile fileSessions existing).id = existing.id := by
  unfold overrideFromFile
  cases h : fileSessions.find? (fun s => s.id == existing.id) with
  | none => rfl
  | some u =>
    dsimp only
    simpa using List.find?_some h

theorem find?_filter_of_imp {α : Type} (l : List α) (p q : α → Bool)
    (h : ∀ x, p x = true → q x = true) :
    (l.filter q).find? p = l.find? p := by
  induction l with
  | nil => rfl
  | cons a l ih =>
    cases hq : q a
    · have hp : p a = false := by
        cases hp : p a
        · rfl
        · rw [h a hp] at hq
          cases hq
      rw [List.filter_cons_of_neg (by simp [hq]), List.find?_cons_of_neg _ (by simp [hp]), ih]
    · rw [List.filter_cons_of_pos (by simp [hq])]
      cases hp : p a
      · rw [List.find?_cons_of_neg _ (by simp [hp]), List.find?_cons_of_neg _ (by simp [hp]),
          ih]
      · rw [List.find?_cons_of_pos _ (by simp [hp]), List.find?_cons_of_pos _ (by simp [hp])]

/-- C8 counterexample: the merge runs (file tier non-empty) but the file
tier reports no active session; the cached pointer is kept, so afterwards it
differs from the file tier pointer. -/
theorem sync_pointer_counterexample :
    (syncSessionsFromFileSystem { sessions := [{ id := "f1" }] }
      { sessions := [], activeId := some "x" }).activeId = some "x" ∧
    ({ sessions := [{ id := "f1" }] } : FileData).activeSessionId = none := by
  decide

/-- C8 amended: when the merge runs (file tier non-empty), every cached
session is replaced by the file-tier version of its id when one exists (even
if unchanged), file-only sessions are appended after the updated cache list,
cache-only sessions are preserved untouched, and the cached active-session
pointer is set to the file tier pointer when that pointer is truthy and kept
unchanged otherwise. -/
theorem syncSessions_spec (data : FileData) (cache : SessionState)
    (hne : data.sessions ≠ []) :
    (syncSessionsFromFileSystem data cache).sessions =
      cache.sessions.map (overrideFromFile data.sessions) ++
        data.sessions.filter (fun s => !((cache.sessions.map (·.id)).contains s.id)) ∧
    (∀ i c f, cache.sessions.find? (fun x => x.id == i) = some c →
      data.sessions.find? (fun x => x.id == i) = some f →
      (syncSessionsFromFileSystem data cache).sessions.find? (fun x => x.id == i) =
        some f) ∧
    (∀ i f, cache.sessions.find? (fun x => x.id == i) = none →
      data.sessions.find? (fun x => x.id == i) = some f →
      (syncSessionsFromFileSystem data cache).sessions.find? (fun x => x.id == i) =
        some f) ∧
    (∀ i c, data.sessions.find? (fun x => x.id == i) = none →
      cache.sessions.find? (fun x => x.id == i) = some c →
      (syncSessionsFromFileSystem data cache).sessions.find? (fun x => x.id == i) =
        some c) ∧
    (syncSessionsFromFileSystem data cache).activeId =
      (if jsStrTruthy data.activeSessionId then data.activeSessionId
       else cache.activeId) := by
  have hpos : 0 < data.sessions.length := List.length_pos.mpr hne
  have hrun : syncSessionsFromFileSystem data cache =
      { sessions := cache.sessions.map (overrideFromFile data.sessions) ++
          data.sessions.filter (fun s => !((cache.sessions.map (·.id)).contains s.id))
        activeId := if jsStrTruthy data.activeSessionId then data.activeSessionId
          else cache.activeId } := by
    unfold syncSessionsFromFileSystem
    rw [if_pos hpos]
  refine ⟨by rw [hrun], ?_, ?_, ?_, by rw [hrun]⟩
  · intro i c f hc hf
    rw [hrun]
    dsimp only
    rw [List.find?_append,
      find_id_map _ _ _ (fun s => overrideFromFile_id data.sessions s), hc]
    have hcid : c.id = i := by simpa using List.find?_some hc
    have hov : overrideFromFile data.sessions c = f := by
      unfold overrideFromFile
      rw [hcid, hf]
    rw [Option.map_some', hov]
    rfl
  · intro i f hc hf
    rw [hrun]
    dsimp only
    rw [List.find?_append,
      find_id_map _ _ _ (fun s => overrideFromFile_id data.sessions s), hc]
    rw [List.find?_eq_none] at hc
    have himp : ∀ x : Session, (x.id == i) = true →
        (!((cache.sessions.map (·.id)).contains x.id)) = true := by
      intro x hx
      have hxi : x.id = i := by simpa using hx
      simp only [Bool.not_eq_true']
      rw [Bool.eq_false_iff]
      intro hcon
      have : x.id ∈ cache.sessions.map (·.id) := by
        simpa using hcon
      obtain ⟨c, hcm, hcid⟩ := List.mem_map.mp this
      exact hc c hcm (by simp [hcid, hxi])
    rw [find?_filter_of_imp data.sessions _ _ himp, hf]
    rfl
  · intro i c hf hc
    rw [hrun]
    dsimp only
    rw [List.find?_append,
      find_id_map _ _ _ (fun s => overrideFromFile_id data.sessions s), hc]
    have hcid : c.id = i := by simpa using List.find?_some hc
    have hov : overrideFromFile data.sessions c = c := by
      unfold overrideFromFile
      rw [hcid, hf]
    rw [Option.map_some', hov]
    rfl

/-- Witness: a session present in both tiers is overwritten by the file-tier
version, and a truthy file pointer replaces the cached pointer. -/
theorem syncSessions_spec_witness :
    (syncSessionsFromFileSystem
      { sessions := [{ id := "a", totalTokens := 10 }], activeSessionId := some "a" }
      { sessions := [{ id := "a", totalTokens := 3 }],
        activeId := none }).sessions.find? (fun x => x.id == "a") =
      some { id := "a", totalTokens := 10 } ∧
    (syncSessionsFromFileSystem
      { sessions := [{ id := "a", totalTokens := 10 }], activeSessionId := some "a" }
      { sessions := [{ id := "a", totalTokens := 3 }], activeId := none }).activeId =
      some "a" := by
  have h := syncSessions_spec
    { sessions := [{ id := "a", totalTokens := 10 }], activeSessionId := some "a" }
    { sessions := [{ id := "a", totalTokens := 3 }], activeId := none } (by decide)
  refine ⟨h.2.1 "a" { id := "a", totalTokens := 3 } { id := "a", totalTokens := 10 }
    (by decide) (by decide), ?_⟩
  rw [h.2.2.2.2]
  decide

end Zhong
